import Mathlib

/-!
Verification of the FHSS hop-sequence generator (`gen_fhss_hops.py`).

The Python source is shallowly embedded below: machine integers become `Nat`
with explicit masking (`&&&` with `0x7FFFFFFF` / `0xFFFFFFFF`, exactly as the
source writes it), the mutable RNG becomes explicit state passing, and the
mutable sequence list becomes a `List Nat` threaded through a fold.  Strings
are Lean `String`/`List Char`; Python's `str.isdigit`/`int` pair is modelled
at full Unicode fidelity via digit tables extracted from the reference
CPython (3.11): `int()` accepts exactly the decimal-digit codepoints
(`decimal_digit_starts`), and the characters where `isdigit()` is true but
`int()` raises `ValueError` (`digit_not_decimal_ranges`) are routed to the
MD5 fallback exactly as the source's `try/except` does.
-/

set_option maxRecDepth 10000

/-! ### Constants (from the source header) -/

def FHSS_SEQUENCE_LEN : Nat := 256

def OTA_VERSION_ID : Nat := 4

/-! ### FirmwareLCG — the firmware-compatible linear congruential generator -/

structure FirmwareLCG where
  state : Nat
deriving Repr, DecidableEq

namespace FirmwareLCG

/-- Source `__init__`: `self.state = seed & 0xFFFFFFFF`. -/
def init (seed : Nat) : FirmwareLCG := ⟨seed &&& 0xFFFFFFFF⟩

/-- Source `rand`: `self.state = (1103515245 * self.state + 12345) & 0x7FFFFFFF;
return self.state`.  Returns the drawn value together with the new state. -/
def rand (g : FirmwareLCG) : Nat × FirmwareLCG :=
  let s := (1103515245 * g.state + 12345) &&& 0x7FFFFFFF
  (s, ⟨s⟩)

/-- Source `rand_range`: `return self.rand() % max_val`. -/
def rand_range (g : FirmwareLCG) (max_val : Nat) : Nat × FirmwareLCG :=
  let r := g.rand
  (r.1 % max_val, r.2)

end FirmwareLCG

/-! ### Seed derivation -/

/-- Source `compute_seed_from_uid`:
`((uid[2] << 24) | (uid[3] << 16) | (uid[4] << 8) | (uid[5] ^ OTA_VERSION_ID)) & 0xFFFFFFFF`. -/
def compute_seed_from_uid (uid : List Nat) : Nat :=
  (((uid.getD 2 0) <<< 24) |||
   ((uid.getD 3 0) <<< 16) |||
   ((uid.getD 4 0) <<< 8) |||
   ((uid.getD 5 0) ^^^ OTA_VERSION_ID)) &&& 0xFFFFFFFF

/-! ### UID derivation (`generate_uid`)

Python's `phrase.split(',')` is modelled by `splitComma`; the comprehension
`int(item) if item.isdigit() else -1` by `token_val`, using the Unicode
digit semantics of the reference CPython: a token is numeric iff it is
nonempty and every character satisfies `str.isdigit`; `int()` then succeeds
iff every character is a decimal digit (category `Nd`, any script), parsed
positionally in base 10, and otherwise raises `ValueError`, which the
source's `try/except` turns into the MD5 fallback.  The MD5 fallback is a
full embedding of the MD5 digest so that the fallback branch computes real
bytes. -/

/-- Python `str.split(',')`: the empty string yields `[[]]`, every comma
starts a new token. -/
def splitComma : List Char → List (List Char)
  | [] => [[]]
  | c :: cs =>
    if c.toNat = 44 then [] :: splitComma cs
    else
      match splitComma cs with
      | [] => [[c]]
      | t :: ts => (c :: t) :: ts

/-- Start codepoints of the 66 Unicode decimal-digit ranges (category `Nd`,
ten consecutive codepoints each, values `0..9`) that Python's `int()`
parses; extracted by exhaustive enumeration of the reference CPython
(3.11, Unicode 14). -/
def decimal_digit_starts : List Nat :=
  [48, 1632, 1776, 1984, 2406, 2534, 2662, 2790, 2918, 3046, 3174, 3302,
   3430, 3558, 3664, 3792, 3872, 4160, 4240, 6112, 6160, 6470, 6608, 6784,
   6800, 6992, 7088, 7232, 7248, 42528, 43216, 43264, 43472, 43504, 43600,
   44016, 65296, 66720, 68912, 69734, 69872, 69942, 70096, 70384, 70736,
   70864, 71248, 71360, 71472, 71904, 72016, 72784, 73040, 73120, 92768,
   92864, 93008, 120782, 120792, 120802, 120812, 120822, 123200, 123632,
   125264, 130032]

/-- Inclusive codepoint ranges where Python's `str.isdigit` is true but
`int()` raises `ValueError` (`Numeric_Type=Digit` characters without a
decimal value, e.g. superscripts and circled digits); extracted by
exhaustive enumeration of the same CPython. -/
def digit_not_decimal_ranges : List (Nat × Nat) :=
  [(178, 179), (185, 185), (4969, 4977), (6618, 6618), (8304, 8304),
   (8308, 8313), (8320, 8329), (9312, 9320), (9332, 9340), (9352, 9360),
   (9450, 9450), (9461, 9469), (9471, 9471), (10102, 10110),
   (10112, 10120), (10122, 10130), (68160, 68163), (69216, 69224),
   (69714, 69722), (127232, 127242)]

/-- The decimal value of a codepoint, when `int()` accepts it as a digit. -/
def decimalDigitVal (n : Nat) : Option Nat :=
  match decimal_digit_starts.find?
      (fun s => decide (s ≤ n) && decide (n < s + 10)) with
  | some s => some (n - s)
  | none => none

/-- Python `str.isdigit` on one character: a decimal digit or a
digit-without-decimal-value character. -/
def pyIsDigit (c : Char) : Bool :=
  (decimalDigitVal c.toNat).isSome ||
    digit_not_decimal_ranges.any
      (fun r => decide (r.1 ≤ c.toNat) && decide (c.toNat ≤ r.2))

/-- Python `int` on an all-decimal-digit token: positional base 10, digits
from any script. -/
def digitsToNat (t : List Char) : Nat :=
  t.foldl (fun acc c => 10 * acc + (decimalDigitVal c.toNat).getD 0) 0

/-- The comprehension `int(item) if item.isdigit() else -1`.  A token whose
characters all pass `isdigit` but that `int()` cannot parse raises
`ValueError` in the source, which the `try/except` routes to the MD5
fallback; here it is modelled by the sentinel `-2`, which can never pass
the `0 ≤ e` range check, so the model takes the fallback exactly when the
source does. -/
def token_val (t : List Char) : Int :=
  if !t.isEmpty && t.all pyIsDigit then
    if t.all (fun c => (decimalDigitVal c.toNat).isSome) then
      Int.ofNat (digitsToNat t)
    else -2
  else -1

/-! #### MD5 (`hashlib.md5`) -/

/-- 32-bit left rotation. -/
def rotl32 (x n : Nat) : Nat := ((x <<< n) ||| (x >>> (32 - n))) % 2 ^ 32

/-- The 64 MD5 round constants `K[i] = floor(abs(sin(i+1)) * 2^32)`. -/
def md5K : List Nat :=
  [0xd76aa478, 0xe8c7b756, 0x242070db, 0xc1bdceee,
   0xf57c0faf, 0x4787c62a, 0xa8304613, 0xfd469501,
   0x698098d8, 0x8b44f7af, 0xffff5bb1, 0x895cd7be,
   0x6b901122, 0xfd987193, 0xa679438e, 0x49b40821,
   0xf61e2562, 0xc040b340, 0x265e5a51, 0xe9b6c7aa,
   0xd62f105d, 0x02441453, 0xd8a1e681, 0xe7d3fbc8,
   0x21e1cde6, 0xc33707d6, 0xf4d50d87, 0x455a14ed,
   0xa9e3e905, 0xfcefa3f8, 0x676f02d9, 0x8d2a4c8a,
   0xfffa3942, 0x8771f681, 0x6d9d6122, 0xfde5380c,
   0xa4beea44, 0x4bdecfa9, 0xf6bb4b60, 0xbebfbc70,
   0x289b7ec6, 0xeaa127fa, 0xd4ef3085, 0x04881d05,
   0xd9d4d039, 0xe6db99e5, 0x1fa27cf8, 0xc4ac5665,
   0xf4292244, 0x432aff97, 0xab9423a7, 0xfc93a039,
   0x655b59c3, 0x8f0ccc92, 0xffeff47d, 0x85845dd1,
   0x6fa87e4f, 0xfe2ce6e0, 0xa3014314, 0x4e0811a1,
   0xf7537e82, 0xbd3af235, 0x2ad7d2bb, 0xeb86d391]

/-- The 64 MD5 per-round shift amounts. -/
def md5S : List Nat :=
  [7, 12, 17, 22, 7, 12, 17, 22, 7, 12, 17, 22, 7, 12, 17, 22,
   5, 9, 14, 20, 5, 9, 14, 20, 5, 9, 14, 20, 5, 9, 14, 20,
   4, 11, 16, 23, 4, 11, 16, 23, 4, 11, 16, 23, 4, 11, 16, 23,
   6, 10, 15, 21, 6, 10, 15, 21, 6, 10, 15, 21, 6, 10, 15, 21]

/-- Little-endian word `g` of a 64-byte chunk. -/
def md5Word (chunk : List Nat) (g : Nat) : Nat :=
  chunk.getD (4 * g) 0 ||| (chunk.getD (4 * g + 1) 0 <<< 8) |||
    (chunk.getD (4 * g + 2) 0 <<< 16) ||| (chunk.getD (4 * g + 3) 0 <<< 24)

/-- One MD5 round `i` (0..63) acting on the state `(a, b, c, d)`. -/
def md5Round (chunk : List Nat) (st : Nat × Nat × Nat × Nat) (i : Nat) :
    Nat × Nat × Nat × Nat :=
  let a := st.1; let b := st.2.1; let c := st.2.2.1; let d := st.2.2.2
  let f :=
    if i < 16 then (b &&& c) ||| ((0xFFFFFFFF ^^^ b) &&& d)
    else if i < 32 then (d &&& b) ||| ((0xFFFFFFFF ^^^ d) &&& c)
    else if i < 48 then b ^^^ c ^^^ d
    else c ^^^ (b ||| (0xFFFFFFFF ^^^ d))
  let g :=
    if i < 16 then i
    else if i < 32 then (5 * i + 1) % 16
    else if i < 48 then (3 * i + 5) % 16
    else (7 * i) % 16
  let f2 := (f + a + md5K.getD i 0 + md5Word chunk g) % 2 ^ 32
  (d, (b + rotl32 f2 (md5S.getD i 0)) % 2 ^ 32, b, c)

/-- Process one 64-byte chunk: 64 rounds, then add into the running state. -/
def md5ProcessChunk (st : Nat × Nat × Nat × Nat) (chunk : List Nat) :
    Nat × Nat × Nat × Nat :=
  let r := (List.range 64).foldl (md5Round chunk) st
  ((st.1 + r.1) % 2 ^ 32, (st.2.1 + r.2.1) % 2 ^ 32,
   (st.2.2.1 + r.2.2.1) % 2 ^ 32, (st.2.2.2 + r.2.2.2) % 2 ^ 32)

/-- The `n` little-endian bytes of `x`. -/
def toLEBytes (x n : Nat) : List Nat :=
  (List.range n).map (fun i => (x >>> (8 * i)) % 256)

/-- MD5 padding: `0x80`, zeros to 56 mod 64, then the 64-bit LE bit length. -/
def md5Pad (msg : List Nat) : List Nat :=
  msg ++ [0x80] ++ List.replicate ((119 - msg.length % 64) % 64) 0 ++
    toLEBytes (8 * msg.length % 2 ^ 64) 8

/-- Process the padded message 64 bytes at a time (`fuel` = chunk count). -/
def md5Loop : Nat → Nat × Nat × Nat × Nat → List Nat → Nat × Nat × Nat × Nat
  | 0, st, _ => st
  | n + 1, st, bytes => md5Loop n (md5ProcessChunk st (bytes.take 64)) (bytes.drop 64)

/-- The digest `hashlib.md5(msg).digest()` as a list of 16 byte values. -/
def md5 (msg : List Nat) : List Nat :=
  let padded := md5Pad msg
  let st := md5Loop (padded.length / 64)
    (0x67452301, 0xefcdab89, 0x98badcfe, 0x10325476) padded
  toLEBytes st.1 4 ++ toLEBytes st.2.1 4 ++ toLEBytes st.2.2.1 4 ++
    toLEBytes st.2.2.2 4

/-- UTF-8 encoding of one character (Python `str.encode()`). -/
def utf8EncodeChar (c : Char) : List Nat :=
  let n := c.toNat
  if n < 0x80 then [n]
  else if n < 0x800 then [0xC0 ||| (n >>> 6), 0x80 ||| (n &&& 0x3F)]
  else if n < 0x10000 then
    [0xE0 ||| (n >>> 12), 0x80 ||| ((n >>> 6) &&& 0x3F), 0x80 ||| (n &&& 0x3F)]
  else
    [0xF0 ||| (n >>> 18), 0x80 ||| ((n >>> 12) &&& 0x3F),
     0x80 ||| ((n >>> 6) &&& 0x3F), 0x80 ||| (n &&& 0x3F)]

/-- UTF-8 encoding of a character list. -/
def utf8Encode (s : List Char) : List Nat := (s.map utf8EncodeChar).flatten

/-- The literal f-string template `-DMY_BINDING_PHRASE="<phrase>"`. -/
def binding_template (phrase : String) : List Char :=
  ("-DMY_BINDING_PHRASE=\"").data ++ phrase.data ++ ("\"").data

/-- Source `generate_uid`: parse the comma-separated phrase into `uid`
(`splitComma`/`token_val`); if it has 4..6 entries all in `[0, 255]`,
left-pad with zeros to 6 bytes, otherwise fall back to the first 6 bytes of
`md5('-DMY_BINDING_PHRASE="<phrase>"')`. -/
def generate_uid (phrase : String) : List Nat :=
  if 4 ≤ ((splitComma phrase.data).map token_val).length ∧
      ((splitComma phrase.data).map token_val).length ≤ 6 ∧
      ∀ e ∈ (splitComma phrase.data).map token_val, 0 ≤ e ∧ e < 256 then
    List.replicate (6 - ((splitComma phrase.data).map token_val).length) 0 ++
      ((splitComma phrase.data).map token_val).map Int.toNat
  else
    (md5 (utf8Encode (binding_template phrase))).take 6

/-- The token list `uid` computed by `generate_uid` from the phrase. -/
def uid_tokens (phrase : String) : List Int :=
  (splitComma phrase.data).map token_val

/-- The decision predicate of `generate_uid`: 4..6 tokens, all in `[0, 255]`. -/
def uid_parse_ok (phrase : String) : Prop :=
  4 ≤ (uid_tokens phrase).length ∧ (uid_tokens phrase).length ≤ 6 ∧
    ∀ e ∈ uid_tokens phrase, 0 ≤ e ∧ e < 256

instance uid_parse_ok_decidable (phrase : String) :
    Decidable (uid_parse_ok phrase) := by
  unfold uid_parse_ok; infer_instance

/-- Result of the parsed path: left-zero-padded token bytes. -/
def uid_parsed (phrase : String) : List Nat :=
  List.replicate (6 - (uid_tokens phrase).length) 0 ++
    (uid_tokens phrase).map Int.toNat

/-- Result of the fallback path: first 6 MD5 bytes of the wrapped phrase. -/
def uid_fallback (phrase : String) : List Nat :=
  (md5 (utf8Encode (binding_template phrase))).take 6

/-! ### FHSSGenerator -/

/-- The simultaneous swap
`sequence[i], sequence[swap_idx] = sequence[swap_idx], sequence[i]`:
both reads happen on the old list. -/
def swapList (l : List Nat) (i j : Nat) : List Nat :=
  (l.set i (l.getD j 0)).set j (l.getD i 0)

/-- Source `self.sync_channel = freq_count // 2`. -/
def sync_channel (freq_count : Nat) : Nat := freq_count / 2

/-- Step 1, "Initial channel allocation". -/
def initial_allocation (freq_count : Nat) : List Nat :=
  (List.range FHSS_SEQUENCE_LEN).map fun i =>
    if i % freq_count = 0 then sync_channel freq_count
    else if i % freq_count = sync_channel freq_count then 0
    else i % freq_count

/-- Loop body of step 2, "Pseudo-random shuffle within frequency blocks". -/
def step2 (freq_count : Nat) (st : List Nat × FirmwareLCG) (i : Nat) :
    List Nat × FirmwareLCG :=
  if i % freq_count ≠ 0 then
    let block_start := (i / freq_count) * freq_count
    let rr := st.2.rand_range (freq_count - 1)
    let rand_offset := rr.1 + 1
    let swap_idx := block_start + rand_offset
    (if swap_idx < FHSS_SEQUENCE_LEN then swapList st.1 i swap_idx else st.1,
     rr.2)
  else st

/-- Source `FHSSGenerator(freq_count, seed).build_sequence()`:
step 1 then the step-2 shuffle over positions `0..255` in order, with the
RNG freshly initialised from the seed (`FirmwareLCG(seed)` in `__init__`). -/
def build_sequence (freq_count seed : Nat) : List Nat :=
  ((List.range FHSS_SEQUENCE_LEN).foldl (step2 freq_count)
    (initial_allocation freq_count, FirmwareLCG.init seed)).1

/-! ### Domain table and end-to-end pipeline -/

structure fhss_config where
  freq_start : Nat
  freq_stop : Nat
  freq_count : Nat
  sync_center_freq : Nat
deriving Repr, DecidableEq

/-- The `DOMAINS` table. -/
def DOMAINS (name : String) : Option fhss_config :=
  if name = ("FCC915") then some ⟨903500000, 926900000, 40, 915000000⟩
  else if name = ("AU915") then some ⟨915500000, 926900000, 20, 921000000⟩
  else if name = ("EU868") then some ⟨865275000, 869575000, 13, 868000000⟩
  else if name = ("IN866") then some ⟨865375000, 866950000, 4, 866000000⟩
  else none

/-- The derivation pipeline of `main` (logging aside):
phrase and domain config to UID to seed to sequence. -/
def run_main (phrase : String) (cfg : fhss_config) : List Nat :=
  build_sequence cfg.freq_count (compute_seed_from_uid (generate_uid phrase))

/-! ### Fallibility model

Python raises `ZeroDivisionError` on `x % 0` and `x // 0`.  The `_checked`
variants make every such division in `build_sequence` explicitly fallible,
so that totality of the algorithm is a theorem rather than an artefact of
Lean's total `%`. -/

/-- Variant of `rand_range` with Python's `ZeroDivisionError` made explicit. -/
def rand_range_checked (g : FirmwareLCG) (max_val : Nat) :
    Option (Nat × FirmwareLCG) :=
  if max_val = 0 then none else some (g.rand_range max_val)

/-- Loop body of step 2 with every `%` and `//` guarded against a zero
divisor. -/
def step2_checked (freq_count : Nat) (st : List Nat × FirmwareLCG) (i : Nat) :
    Option (List Nat × FirmwareLCG) :=
  if freq_count = 0 then none
  else if i % freq_count ≠ 0 then
    match rand_range_checked st.2 (freq_count - 1) with
    | none => none
    | some rr =>
      let block_start := (i / freq_count) * freq_count
      let swap_idx := block_start + (rr.1 + 1)
      some (if swap_idx < FHSS_SEQUENCE_LEN then swapList st.1 i swap_idx
            else st.1, rr.2)
  else some st

/-- Variant of `build_sequence` in the fallibility model (step 1 also takes
`i % freq_count`, so a zero `freq_count` fails immediately). -/
def build_sequence_checked (freq_count seed : Nat) : Option (List Nat) :=
  if freq_count = 0 then none
  else
    match (List.range FHSS_SEQUENCE_LEN).foldlM (step2_checked freq_count)
      (initial_allocation freq_count, FirmwareLCG.init seed) with
    | none => none
    | some st => some st.1

/-- The block of `n` consecutive positions starting at `s`. -/
def blockSlice (l : List Nat) (s n : Nat) : List Nat := (l.drop s).take n

/-! ## Theorems -/

/-! ### Masking and generic fold lemmas -/

theorem mask31_eq_mod (x : Nat) : x &&& 0x7FFFFFFF = x % 2 ^ 31 := by
  have h : (0x7FFFFFFF : Nat) = 2 ^ 31 - 1 := by norm_num
  rw [h, Nat.and_pow_two_sub_one_eq_mod]

theorem mask32_eq_mod (x : Nat) : x &&& 0xFFFFFFFF = x % 2 ^ 32 := by
  have h : (0xFFFFFFFF : Nat) = 2 ^ 32 - 1 := by norm_num
  rw [h, Nat.and_pow_two_sub_one_eq_mod]

theorem foldl_inv {α β : Type} (step : β → α → β) (P : β → Prop) :
    ∀ (l : List α) (b : β), P b → (∀ b a, a ∈ l → P b → P (step b a)) →
      P (l.foldl step b)
  | [], b, hb, _ => hb
  | a :: l, b, hb, hstep =>
    foldl_inv step P l (step b a) (hstep b a (List.mem_cons_self a l) hb)
      fun b' a' ha' => hstep b' a' (List.mem_cons_of_mem a ha')

theorem foldlM_eq_foldl {α β : Type} (stepM : β → α → Option β)
    (step : β → α → β) :
    ∀ (l : List α) (b : β), (∀ b a, a ∈ l → stepM b a = some (step b a)) →
      l.foldlM stepM b = some (l.foldl step b)
  | [], b, _ => rfl
  | a :: l, b, h => by
    rw [List.foldlM_cons, h b a (List.mem_cons_self a l)]
    exact foldlM_eq_foldl stepM step l (step b a)
      fun b' a' ha' => h b' a' (List.mem_cons_of_mem a ha')

theorem toLEBytes_length (x n : Nat) : (toLEBytes x n).length = n := by
  simp [toLEBytes]

theorem md5_length (msg : List Nat) : (md5 msg).length = 16 := by
  simp [md5, toLEBytes_length]

theorem generate_uid_eq_ite (phrase : String) :
    generate_uid phrase =
      if uid_parse_ok phrase then uid_parsed phrase else uid_fallback phrase := by
  by_cases h : uid_parse_ok phrase
  · have h' := h
    obtain ⟨h4, h6, hr⟩ := h'
    unfold uid_tokens at h4 h6 hr
    rw [generate_uid, if_pos ⟨h4, h6, hr⟩, if_pos h]
    rfl
  · have h' : ¬ (4 ≤ ((splitComma phrase.data).map token_val).length ∧
        ((splitComma phrase.data).map token_val).length ≤ 6 ∧
        ∀ e ∈ (splitComma phrase.data).map token_val, 0 ≤ e ∧ e < 256) := by
      intro hc
      exact h ⟨hc.1, hc.2.1, hc.2.2⟩
    rw [generate_uid, if_neg h', if_neg h]
    rfl

/-! ### Claim theorems -/

/-- C2: The RNG follows the exact recurrence
`state = (1103515245 * state + 12345) mod 2^31`, with `rand` (the source's
`next()`) returning the new state; started from seed `0` the first call
returns `12345`; and `rand_range bound` (the source's `nextBounded`) returns
`rand() mod bound`, so for every `bound > 0` the result satisfies
`0 ≤ result < bound`. -/
theorem firmware_lcg_spec (s bound : Nat) (hb : 0 < bound) :
    (FirmwareLCG.rand ⟨s⟩).1 = (1103515245 * s + 12345) % 2 ^ 31 ∧
    ((FirmwareLCG.rand ⟨s⟩).2).state = (1103515245 * s + 12345) % 2 ^ 31 ∧
    ((FirmwareLCG.init 0).rand).1 = 12345 ∧
    (FirmwareLCG.rand_range ⟨s⟩ bound).1 = (FirmwareLCG.rand ⟨s⟩).1 % bound ∧
    (FirmwareLCG.rand_range ⟨s⟩ bound).1 < bound := by
  refine ⟨?_, ?_, ?_, rfl, ?_⟩
  · simpa [FirmwareLCG.rand] using mask31_eq_mod (1103515245 * s + 12345)
  · simpa [FirmwareLCG.rand] using mask31_eq_mod (1103515245 * s + 12345)
  · rfl
  · exact Nat.mod_lt _ hb

/-- Witness for C2 at `s = 0`, `bound = 7`. -/
theorem firmware_lcg_spec_witness :
    0 < 7 ∧
    ((FirmwareLCG.rand ⟨0⟩).1 = (1103515245 * 0 + 12345) % 2 ^ 31 ∧
     ((FirmwareLCG.rand ⟨0⟩).2).state = (1103515245 * 0 + 12345) % 2 ^ 31 ∧
     ((FirmwareLCG.init 0).rand).1 = 12345 ∧
     (FirmwareLCG.rand_range ⟨0⟩ 7).1 = (FirmwareLCG.rand ⟨0⟩).1 % 7 ∧
     (FirmwareLCG.rand_range ⟨0⟩ 7).1 < 7) :=
  ⟨by decide, firmware_lcg_spec 0 7 (by decide)⟩

/-- C3: For every 6-byte UID, the derived seed equals
`((uid[2] <<< 24) ||| (uid[3] <<< 16) ||| (uid[4] <<< 8) ||| (uid[5] ^^^ 4))`
masked to 32 bits, and it depends only on bytes 2..5: two UIDs agreeing on
bytes 2..5 (however they differ in bytes 0 and 1) yield equal seeds. -/
theorem compute_seed_from_uid_spec (u v : List Nat)
    (hu : u.length = 6) (hv : v.length = 6)
    (h2 : u.getD 2 0 = v.getD 2 0) (h3 : u.getD 3 0 = v.getD 3 0)
    (h4 : u.getD 4 0 = v.getD 4 0) (h5 : u.getD 5 0 = v.getD 5 0) :
    compute_seed_from_uid u =
      (((u.getD 2 0) <<< 24) ||| ((u.getD 3 0) <<< 16) |||
       ((u.getD 4 0) <<< 8) ||| ((u.getD 5 0) ^^^ 4)) % 2 ^ 32 ∧
    compute_seed_from_uid u = compute_seed_from_uid v := by
  constructor
  · rw [compute_seed_from_uid, mask32_eq_mod]
    rfl
  · rw [compute_seed_from_uid, compute_seed_from_uid, h2, h3, h4, h5]

/-- Witness for C3: two concrete UIDs differing only in bytes 0 and 1. -/
theorem compute_seed_from_uid_spec_witness :
    compute_seed_from_uid [0, 0, 42, 13, 9, 8] =
      ((((([0, 0, 42, 13, 9, 8] : List Nat).getD 2 0) <<< 24) |||
        ((([0, 0, 42, 13, 9, 8] : List Nat).getD 3 0) <<< 16) |||
        ((([0, 0, 42, 13, 9, 8] : List Nat).getD 4 0) <<< 8) |||
        ((([0, 0, 42, 13, 9, 8] : List Nat).getD 5 0) ^^^ 4)) % 2 ^ 32) ∧
    compute_seed_from_uid [0, 0, 42, 13, 9, 8] =
      compute_seed_from_uid [255, 17, 42, 13, 9, 8] :=
  compute_seed_from_uid_spec [0, 0, 42, 13, 9, 8] [255, 17, 42, 13, 9, 8]
    (by decide) (by decide) (by decide) (by decide) (by decide) (by decide)

/-- C4: For every phrase whose comma-split tokens are a list of length 4 to 6
inclusive of valid non-negative decimal integers each in `[0, 255]`,
`generate_uid` returns that token list left-padded with zero bytes to
length 6. -/
theorem generate_uid_parsed_spec (phrase : String)
    (h4 : 4 ≤ (uid_tokens phrase).length) (h6 : (uid_tokens phrase).length ≤ 6)
    (hr : ∀ e ∈ uid_tokens phrase, 0 ≤ e ∧ e < 256) :
    generate_uid phrase =
      List.replicate (6 - (uid_tokens phrase).length) 0 ++
        (uid_tokens phrase).map Int.toNat ∧
    (generate_uid phrase).length = 6 := by
  have heq : generate_uid phrase = uid_parsed phrase := by
    rw [generate_uid_eq_ite, if_pos ⟨h4, h6, hr⟩]
  refine ⟨heq, ?_⟩
  rw [heq, uid_parsed, List.length_append, List.length_replicate,
    List.length_map, Nat.sub_add_cancel h6]

/-- Witness for C4: the default phrase `"42,13,9,8"` yields
`[0x00, 0x00, 0x2A, 0x0D, 0x09, 0x08]`. -/
theorem generate_uid_parsed_spec_witness :
    generate_uid ("42,13,9,8") = [0x00, 0x00, 0x2A, 0x0D, 0x09, 0x08] :=
  (generate_uid_parsed_spec ("42,13,9,8") (by decide) (by decide)
    (by decide)).1.trans (by decide)

/-- C5: For every phrase that does not satisfy the parsed-path condition,
`generate_uid` returns the first 6 bytes of the MD5 digest of the UTF-8
encoding of `-DMY_BINDING_PHRASE="<phrase>"`. -/
theorem generate_uid_fallback_spec (phrase : String)
    (h : ¬ uid_parse_ok phrase) :
    generate_uid phrase = (md5 (utf8Encode (binding_template phrase))).take 6 := by
  rw [generate_uid_eq_ite, if_neg h]
  rfl

/-- Witness for C5: the empty phrase fails the parse condition and takes the
MD5 fallback. -/
theorem generate_uid_fallback_spec_witness :
    ¬ uid_parse_ok ("") ∧
    generate_uid ("") = (md5 (utf8Encode (binding_template ("")))).take 6 :=
  ⟨by decide, generate_uid_fallback_spec ("") (by decide)⟩

/-- C6: For every input string, UID derivation is total and returns exactly
6 bytes, and the parsed path and the fallback path are mutually exclusive,
decided solely by the length-4-to-6 and range-`[0, 255]` condition
`uid_parse_ok`. -/
theorem generate_uid_total_spec (phrase : String) :
    (generate_uid phrase).length = 6 ∧
    generate_uid phrase =
      (if uid_parse_ok phrase then uid_parsed phrase else uid_fallback phrase) := by
  refine ⟨?_, generate_uid_eq_ite phrase⟩
  rw [generate_uid_eq_ite phrase]
  by_cases h : uid_parse_ok phrase
  · rw [if_pos h, uid_parsed, List.length_append, List.length_replicate,
      List.length_map, Nat.sub_add_cancel h.2.1]
  · rw [if_neg h, uid_fallback, List.length_take, md5_length]
    decide

/-! ### Length lemmas for the sequence builder -/

theorem length_swapList (l : List Nat) (i j : Nat) :
    (swapList l i j).length = l.length := by
  simp [swapList]

theorem length_initial_allocation (fc : Nat) :
    (initial_allocation fc).length = 256 := by
  simp [initial_allocation, FHSS_SEQUENCE_LEN]

theorem length_step2 (fc : Nat) (st : List Nat × FirmwareLCG) (i : Nat) :
    (step2 fc st i).1.length = st.1.length := by
  rw [step2]
  split
  · dsimp only
    split
    · exact length_swapList ..
    · rfl
  · rfl

theorem length_build_sequence (fc seed : Nat) :
    (build_sequence fc seed).length = 256 :=
  foldl_inv (step2 fc) (fun st => st.1.length = 256)
    (List.range FHSS_SEQUENCE_LEN) (initial_allocation fc, FirmwareLCG.init seed)
    (length_initial_allocation fc)
    (fun st i _ h => (length_step2 fc st i).trans h)

/-- C1: Sequence construction is deterministic: `build_sequence` is a pure
function of `(freq_count, seed)` (the RNG is freshly initialised from the
seed inside it), so two runs from the same pair give identical 256-element
sequences, and the same `(phrase, domain-config)` pair run twice end-to-end
yields bit-identical sequences. -/
theorem build_sequence_deterministic (fc seed : Nat) (phrase : String)
    (cfg : fhss_config) :
    build_sequence fc seed = build_sequence fc seed ∧
    (build_sequence fc seed).length = 256 ∧
    run_main phrase cfg = run_main phrase cfg ∧
    (run_main phrase cfg).length = 256 :=
  ⟨rfl, length_build_sequence fc seed, rfl, length_build_sequence ..⟩

/-- The closed form of step 1, position by position. -/
theorem initial_allocation_getD (fc i : Nat) (hi : i < 256) :
    (initial_allocation fc).getD i 0 =
      if i % fc = 0 then fc / 2
      else if i % fc = fc / 2 then 0
      else i % fc := by
  have hlen : i < (initial_allocation fc).length := by
    rw [length_initial_allocation]; exact hi
  rw [List.getD_eq_getElem _ _ hlen]
  simp only [initial_allocation, List.getElem_map, List.getElem_range]
  rfl

/-- C7: After step 1 (before any shuffling), for every `freqCount` in
`[1, 256]` and every position `i < 256`, the value is
`syncChannel = freqCount / 2` when `i % freqCount = 0`, is `0` when
`i % freqCount = syncChannel`, and is `i % freqCount` otherwise. -/
theorem initial_allocation_spec (fc : Nat) (h1 : 1 ≤ fc) (h2 : fc ≤ 256)
    (i : Nat) (hi : i < 256) :
    (initial_allocation fc).getD i 0 =
      if i % fc = 0 then fc / 2
      else if i % fc = fc / 2 then 0
      else i % fc :=
  initial_allocation_getD fc i hi

/-- Witness for C7 at `freqCount = 4`: the sync channel is `2` and a
block-start position (here `i = 8`) initially holds it. -/
theorem initial_allocation_spec_witness :
    (1 ≤ 4 ∧ 4 ≤ 256 ∧ 8 < 256 ∧ sync_channel 4 = 2) ∧
    (initial_allocation 4).getD 8 0 =
      (if 8 % 4 = 0 then 4 / 2 else if 8 % 4 = 4 / 2 then 0 else 8 % 4) :=
  ⟨by decide, initial_allocation_spec 4 (by decide) (by decide) 8 (by decide)⟩

/-- C9: Step 2 processes positions `0..255` in strictly increasing order
(a left fold over the strictly increasing `List.range 256`); for every `i`
with `i % freqCount ≠ 0` it draws `offset = rand_range (freqCount - 1) + 1`,
advancing the RNG state exactly once whether or not the swap is applied,
computes `swap_idx = (i / freqCount) * freqCount + offset`, and swaps the
current values at `i` and `swap_idx` exactly when `swap_idx < 256`, later
steps seeing the updated list. -/
theorem step2_spec (fc : Nat) (seq : List Nat) (rng : FirmwareLCG)
    (i seed : Nat) (h : i % fc ≠ 0) :
    step2 fc (seq, rng) i =
      ((if (i / fc) * fc + ((rng.rand).1 % (fc - 1) + 1) < 256 then
          swapList seq i ((i / fc) * fc + ((rng.rand).1 % (fc - 1) + 1))
        else seq),
       (rng.rand).2) ∧
    build_sequence fc seed =
      ((List.range 256).foldl (step2 fc)
        (initial_allocation fc, FirmwareLCG.init seed)).1 ∧
    List.Pairwise (· < ·) (List.range 256) := by
  refine ⟨?_, rfl, List.pairwise_lt_range 256⟩
  rw [step2, if_pos h]
  rfl

/-- Witness for C9 at `freqCount = 4`, `i = 1` on a concrete state. -/
theorem step2_spec_witness :
    1 % 4 ≠ 0 ∧
    step2 4 (List.replicate 256 0, ⟨0⟩) 1 =
      ((if (1 / 4) * 4 + ((FirmwareLCG.rand ⟨0⟩).1 % (4 - 1) + 1) < 256 then
          swapList (List.replicate 256 0) 1
            ((1 / 4) * 4 + ((FirmwareLCG.rand ⟨0⟩).1 % (4 - 1) + 1))
        else List.replicate 256 0),
       (FirmwareLCG.rand ⟨0⟩).2) :=
  ⟨by decide, (step2_spec 4 (List.replicate 256 0) ⟨0⟩ 1 0 (by decide)).1⟩

/-! ### Element bounds and totality (C8) -/

theorem getD_lt_of_all {l : List Nat} {fc : Nat} (hall : ∀ x ∈ l, x < fc)
    (hfc : 0 < fc) (j : Nat) : l.getD j 0 < fc := by
  by_cases hj : j < l.length
  · rw [List.getD_eq_getElem _ _ hj]
    exact hall _ (List.getElem_mem hj)
  · rw [List.getD_eq_default _ _ (Nat.le_of_not_lt hj)]
    exact hfc

theorem swapList_all_lt {l : List Nat} {fc : Nat} (hall : ∀ x ∈ l, x < fc)
    (hfc : 0 < fc) (i j : Nat) : ∀ x ∈ swapList l i j, x < fc := by
  intro x hx
  rw [swapList] at hx
  rcases List.mem_or_eq_of_mem_set hx with hx | rfl
  · rcases List.mem_or_eq_of_mem_set hx with hx | rfl
    · exact hall x hx
    · exact getD_lt_of_all hall hfc j
  · exact getD_lt_of_all hall hfc i

theorem initial_allocation_all_lt (fc : Nat) (hfc : 0 < fc) :
    ∀ x ∈ initial_allocation fc, x < fc := by
  intro x hx
  rw [initial_allocation] at hx
  obtain ⟨i, _, rfl⟩ := List.mem_map.mp hx
  split
  · exact Nat.div_lt_self hfc Nat.one_lt_two
  · split
    · exact hfc
    · exact Nat.mod_lt _ hfc

theorem step2_all_lt (fc : Nat) (hfc : 0 < fc) (st : List Nat × FirmwareLCG)
    (i : Nat) (hall : ∀ x ∈ st.1, x < fc) :
    ∀ x ∈ (step2 fc st i).1, x < fc := by
  rw [step2]
  split
  · dsimp only
    split
    · exact swapList_all_lt hall hfc _ _
    · exact hall
  · exact hall

theorem build_sequence_all_lt (fc seed : Nat) (hfc : 0 < fc) :
    ∀ x ∈ build_sequence fc seed, x < fc :=
  foldl_inv (step2 fc) (fun st => ∀ x ∈ st.1, x < fc)
    (List.range FHSS_SEQUENCE_LEN) (initial_allocation fc, FirmwareLCG.init seed)
    (initial_allocation_all_lt fc hfc)
    (fun st i _ h => step2_all_lt fc hfc st i h)

theorem step2_checked_eq (fc : Nat) (hfc : 0 < fc)
    (st : List Nat × FirmwareLCG) (i : Nat) :
    step2_checked fc st i = some (step2 fc st i) := by
  rw [step2_checked, step2, if_neg hfc.ne']
  by_cases h0 : i % fc ≠ 0
  · rw [if_pos h0, if_pos h0]
    have hfc2 : 2 ≤ fc := by
      by_contra hlt
      have hfc1 : fc = 1 := by omega
      exact h0 (by rw [hfc1]; exact Nat.mod_one i)
    rw [rand_range_checked, if_neg (by omega)]
  · rw [if_neg h0, if_neg h0]

theorem build_sequence_checked_eq (fc seed : Nat) (hfc : 0 < fc) :
    build_sequence_checked fc seed = some (build_sequence fc seed) := by
  rw [build_sequence_checked, if_neg hfc.ne', build_sequence,
    foldlM_eq_foldl (step2_checked fc) (step2 fc) _ _
      (fun st i _ => step2_checked_eq fc hfc st i)]

/-- C8: For every `freqCount` in `[1, 256]` and every seed, building the
sequence is total — the fallibility model (every `%` and `//` guarded
against zero divisors, in particular the `rand_range (freqCount - 1)` call,
which is unreachable when `freqCount = 1`) succeeds and agrees with the
total embedding — and the result has exactly 256 elements, each in
`[0, freqCount)`. -/
theorem build_sequence_total_spec (fc seed : Nat) (h1 : 1 ≤ fc)
    (h2 : fc ≤ 256) :
    build_sequence_checked fc seed = some (build_sequence fc seed) ∧
    (build_sequence fc seed).length = 256 ∧
    ∀ x ∈ build_sequence fc seed, x < fc :=
  ⟨build_sequence_checked_eq fc seed h1, length_build_sequence fc seed,
   build_sequence_all_lt fc seed h1⟩

/-- Witness for C8 at `freqCount = 1` (the boundary where the guarded
`rand_range 0` call must be unreachable) and seed `0`. -/
theorem build_sequence_total_spec_witness :
    (1 ≤ 1 ∧ 1 ≤ 256) ∧
    (build_sequence_checked 1 0 = some (build_sequence 1 0) ∧
     (build_sequence 1 0).length = 256 ∧
     ∀ x ∈ build_sequence 1 0, x < 1) :=
  ⟨by decide, build_sequence_total_spec 1 0 (by decide) (by decide)⟩

/-! ### Swap and block-slice lemmas (C10) -/

theorem cons_set_perm {α : Type} (d : α) :
    ∀ (t : List α) (m : Nat) (b : α), m < t.length →
      List.Perm (t.getD m d :: t.set m b) (b :: t)
  | [], _, _, hm => by simp at hm
  | x :: xs, 0, b, _ => by
      simp only [List.getD_cons_zero, List.set_cons_zero]
      exact List.Perm.swap b x xs
  | x :: xs, m + 1, b, hm => by
      simp only [List.getD_cons_succ, List.set_cons_succ]
      exact ((List.Perm.swap x (xs.getD m d) (xs.set m b)).trans
        (List.Perm.cons x (cons_set_perm d xs m b (by simpa using hm)))).trans
        (List.Perm.swap b x xs)

theorem swapList_perm : ∀ (l : List Nat) (i j : Nat), i < l.length →
    j < l.length → List.Perm (swapList l i j) l
  | [], _, _, hi, _ => by simp at hi
  | x :: xs, 0, 0, _, _ => by simp [swapList]
  | x :: xs, 0, j + 1, _, hj => by
      rw [swapList]
      simp only [List.getD_cons_succ, List.getD_cons_zero, List.set_cons_zero,
        List.set_cons_succ]
      exact cons_set_perm 0 xs j x (by simpa using hj)
  | x :: xs, i + 1, 0, hi, _ => by
      rw [swapList]
      simp only [List.getD_cons_succ, List.getD_cons_zero, List.set_cons_succ,
        List.set_cons_zero]
      exact cons_set_perm 0 xs i x (by simpa using hi)
  | x :: xs, i + 1, j + 1, hi, hj => by
      rw [swapList]
      simp only [List.getD_cons_succ, List.set_cons_succ]
      exact List.Perm.cons x
        (swapList_perm xs i j (by simpa using hi) (by simpa using hj))

theorem length_blockSlice (l : List Nat) (s n : Nat) (h : s + n ≤ l.length) :
    (blockSlice l s n).length = n := by
  rw [blockSlice, List.length_take, List.length_drop]
  omega

theorem getD_blockSlice (l : List Nat) (s n j : Nat) (hsn : s + n ≤ l.length)
    (hj : j < n) : (blockSlice l s n).getD j 0 = l.getD (s + j) 0 := by
  have h1 : j < (blockSlice l s n).length := by
    rw [length_blockSlice l s n hsn]; exact hj
  have h2 : s + j < l.length := by omega
  rw [List.getD_eq_getElem _ _ h1, List.getD_eq_getElem _ _ h2]
  simp [blockSlice]

theorem getD_swapList (l : List Nat) (p q x : Nat) (hx : x < l.length) :
    (swapList l p q).getD x 0 =
      if q = x then l.getD p 0
      else if p = x then l.getD q 0
      else l.getD x 0 := by
  have hx2 : x < ((l.set p (l.getD q 0)).set q (l.getD p 0)).length := by
    simpa using hx
  rw [swapList, List.getD_eq_getElem _ _ hx2, List.getElem_set, List.getElem_set]
  by_cases h1 : q = x
  · rw [if_pos h1, if_pos h1]
  · rw [if_neg h1, if_neg h1]
    by_cases h2 : p = x
    · rw [if_pos h2, if_pos h2]
    · rw [if_neg h2, if_neg h2, List.getD_eq_getElem _ _ hx]

theorem blockSlice_set_outside (l : List Nat) (s n p a : Nat)
    (hp : p < s ∨ s + n ≤ p) :
    blockSlice (l.set p a) s n = blockSlice l s n := by
  apply List.ext_getElem
  · simp [blockSlice]
  · intro j h1 h2
    have hj : j < n := by
      simp only [blockSlice, List.length_take, List.length_drop,
        List.length_set] at h1
      omega
    simp only [blockSlice, List.getElem_take, List.getElem_drop]
    exact List.getElem_set_ne (by omega) _

theorem blockSlice_swapList_outside (l : List Nat) (s n p q : Nat)
    (hp : p < s ∨ s + n ≤ p) (hq : q < s ∨ s + n ≤ q) :
    blockSlice (swapList l p q) s n = blockSlice l s n := by
  rw [swapList, blockSlice_set_outside _ _ _ _ _ hq,
    blockSlice_set_outside _ _ _ _ _ hp]

theorem blockSlice_swapList_inside (l : List Nat) (s n p q : Nat)
    (hsn : s + n ≤ l.length) (hp1 : s ≤ p) (hp2 : p < s + n)
    (hq1 : s ≤ q) (hq2 : q < s + n) :
    blockSlice (swapList l p q) s n =
      swapList (blockSlice l s n) (p - s) (q - s) := by
  have hsn' : s + n ≤ (swapList l p q).length := by
    rw [length_swapList]; exact hsn
  have hlen1 : (blockSlice (swapList l p q) s n).length = n :=
    length_blockSlice _ s n hsn'
  have hlen2 : (blockSlice l s n).length = n := length_blockSlice l s n hsn
  apply List.ext_getElem
  · rw [hlen1, length_swapList, hlen2]
  · intro j h1 h2
    have hj : j < n := by rw [hlen1] at h1; exact h1
    rw [← List.getD_eq_getElem _ 0 h1, ← List.getD_eq_getElem _ 0 h2]
    rw [getD_blockSlice _ s n j hsn' hj]
    rw [getD_swapList l p q (s + j) (by omega)]
    rw [getD_swapList (blockSlice l s n) (p - s) (q - s) j
      (by rw [hlen2]; exact hj)]
    rw [getD_blockSlice l s n (p - s) hsn (by omega),
      getD_blockSlice l s n (q - s) hsn (by omega),
      getD_blockSlice l s n j hsn hj]
    have hps : s + (p - s) = p := by omega
    have hqs : s + (q - s) = q := by omega
    rw [hps, hqs]
    by_cases hqx : q = s + j
    · rw [if_pos hqx, if_pos (by omega)]
    · rw [if_neg hqx, if_neg (show ¬ (q - s = j) by omega)]
      by_cases hpx : p = s + j
      · rw [if_pos hpx, if_pos (by omega)]
      · rw [if_neg hpx, if_neg (show ¬ (p - s = j) by omega)]

theorem initial_allocation_block_perm (fc k : Nat) (hfc : 2 ≤ fc)
    (hk : (k + 1) * fc ≤ 256) :
    List.Perm (blockSlice (initial_allocation fc) (k * fc) fc)
      (List.range fc) := by
  have hble : k * fc + fc ≤ 256 := by rw [← Nat.succ_mul]; exact hk
  have hsn : k * fc + fc ≤ (initial_allocation fc).length := by
    rw [length_initial_allocation]; exact hble
  have hhalf : fc / 2 < fc := Nat.div_lt_self (by omega) Nat.one_lt_two
  have hhalf0 : fc / 2 ≠ 0 := by
    have h1 : 1 ≤ fc / 2 := (Nat.le_div_iff_mul_le (by omega)).mpr (by omega)
    omega
  have heq : blockSlice (initial_allocation fc) (k * fc) fc =
      swapList (List.range fc) 0 (fc / 2) := by
    apply List.ext_getElem
    · rw [length_blockSlice _ _ _ hsn, length_swapList, List.length_range]
    · intro j h1 h2
      have hj : j < fc := by rw [length_blockSlice _ _ _ hsn] at h1; exact h1
      rw [← List.getD_eq_getElem _ 0 h1, ← List.getD_eq_getElem _ 0 h2]
      rw [getD_blockSlice _ _ _ _ hsn hj]
      rw [initial_allocation_getD fc (k * fc + j) (by omega)]
      rw [getD_swapList (List.range fc) 0 (fc / 2) j (by simpa using hj)]
      have hmod : (k * fc + j) % fc = j := by
        rw [Nat.mul_comm k fc, Nat.mul_add_mod]
        exact Nat.mod_eq_of_lt hj
      rw [hmod]
      have hr0 : (List.range fc).getD 0 0 = 0 := by
        rw [List.getD_eq_getElem _ _ (by simpa using (show 0 < fc by omega)),
          List.getElem_range]
      have hrh : (List.range fc).getD (fc / 2) 0 = fc / 2 := by
        rw [List.getD_eq_getElem _ _ (by simpa using hhalf), List.getElem_range]
      have hrj : (List.range fc).getD j 0 = j := by
        rw [List.getD_eq_getElem _ _ (by simpa using hj), List.getElem_range]
      rw [hr0, hrh, hrj]
      by_cases hj0 : j = 0
      · rw [if_pos hj0, if_neg (show ¬ (fc / 2 = j) by omega),
          if_pos (show (0 : Nat) = j by omega)]
      · rw [if_neg hj0]
        by_cases hjh : j = fc / 2
        · rw [if_pos hjh, if_pos (show fc / 2 = j by omega)]
        · rw [if_neg hjh, if_neg (show ¬ (fc / 2 = j) by omega),
            if_neg (show ¬ ((0 : Nat) = j) by omega)]
  rw [heq]
  exact swapList_perm (List.range fc) 0 (fc / 2)
    (by simpa using (show 0 < fc by omega)) (by simpa using hhalf)

theorem step2_preserves_blocks (fc : Nat) (hfc : 2 ≤ fc)
    (st : List Nat × FirmwareLCG) (i : Nat) (hi : i < 256)
    (hlen : st.1.length = 256)
    (hperm : ∀ k, (k + 1) * fc ≤ 256 →
      List.Perm (blockSlice st.1 (k * fc) fc) (List.range fc)) :
    (step2 fc st i).1.length = 256 ∧
    ∀ k, (k + 1) * fc ≤ 256 →
      List.Perm (blockSlice (step2 fc st i).1 (k * fc) fc) (List.range fc) := by
  refine ⟨(length_step2 fc st i).trans hlen, fun k hk => ?_⟩
  have hkfc : k * fc + fc ≤ 256 := by rw [← Nat.succ_mul]; exact hk
  rw [step2]
  by_cases h0 : i % fc ≠ 0
  · rw [if_pos h0]
    dsimp only
    have hfc1 : 0 < fc - 1 := by omega
    have hr : (st.2.rand_range (fc - 1)).1 < fc - 1 := Nat.mod_lt _ hfc1
    have hbs1 : (i / fc) * fc ≤ i := Nat.div_mul_le_self i fc
    have hbs2 : i < (i / fc) * fc + fc := by
      have hdm := Nat.div_add_mod i fc
      have hcomm : fc * (i / fc) = (i / fc) * fc := Nat.mul_comm fc (i / fc)
      have hm : i % fc < fc := Nat.mod_lt _ (by omega)
      omega
    by_cases hsw : (i / fc) * fc + ((st.2.rand_range (fc - 1)).1 + 1) <
        FHSS_SEQUENCE_LEN
    · rw [if_pos hsw]
      have hq1 : (i / fc) * fc ≤
          (i / fc) * fc + ((st.2.rand_range (fc - 1)).1 + 1) :=
        Nat.le_add_right _ _
      have hq2 : (i / fc) * fc + ((st.2.rand_range (fc - 1)).1 + 1) <
          (i / fc) * fc + fc := by omega
      by_cases hkeq : k = i / fc
      · subst hkeq
        refine List.Perm.trans ?_ (hperm (i / fc) hk)
        rw [blockSlice_swapList_inside st.1 ((i / fc) * fc) fc i
          ((i / fc) * fc + ((st.2.rand_range (fc - 1)).1 + 1))
          (by rw [hlen]; exact hkfc) hbs1 hbs2 (Nat.le_add_right _ _)
          (by omega)]
        refine swapList_perm _ _ _ ?_ ?_
        · rw [length_blockSlice _ _ _ (by rw [hlen]; exact hkfc)]
          omega
        · rw [length_blockSlice _ _ _ (by rw [hlen]; exact hkfc)]
          omega
      · have hdisj : ∀ x, (i / fc) * fc ≤ x → x < (i / fc) * fc + fc →
            x < k * fc ∨ k * fc + fc ≤ x := by
          intro x hx1 hx2
          rcases Nat.lt_or_ge k (i / fc) with hlt | hge
          · right
            have hmul : (k + 1) * fc ≤ (i / fc) * fc :=
              Nat.mul_le_mul hlt (Nat.le_refl fc)
            rw [Nat.succ_mul] at hmul
            omega
          · left
            have hgt : i / fc < k := by
              rcases Nat.lt_or_ge (i / fc) k with h | h
              · exact h
              · exact absurd (Nat.le_antisymm h hge) hkeq
            have hmul : (i / fc + 1) * fc ≤ k * fc :=
              Nat.mul_le_mul hgt (Nat.le_refl fc)
            rw [Nat.succ_mul] at hmul
            omega
        rw [blockSlice_swapList_outside st.1 (k * fc) fc i
          ((i / fc) * fc + ((st.2.rand_range (fc - 1)).1 + 1))
          (hdisj i hbs1 hbs2) (hdisj _ hq1 hq2)]
        exact hperm k hk
    · rw [if_neg hsw]
      exact hperm k hk
  · rw [if_neg h0]
    exact hperm k hk

/-- C10: For every `freqCount` in `[2, 256]` and every seed, every complete
block of the built sequence (positions `k * freqCount ..< (k+1) * freqCount`
with `(k+1) * freqCount ≤ 256`) contains each channel value
`0 .. freqCount - 1` exactly once: step 1 makes each full block a
permutation of the channel set and every step-2 swap target lies in the same
block as the swapped position. -/
theorem build_sequence_block_permutation (fc : Nat) (h2 : 2 ≤ fc)
    (h256 : fc ≤ 256) (seed k v : Nat) (hk : (k + 1) * fc ≤ 256)
    (hv : v < fc) :
    (blockSlice (build_sequence fc seed) (k * fc) fc).count v = 1 := by
  have hinv := foldl_inv (step2 fc)
    (fun st => st.1.length = 256 ∧ ∀ k, (k + 1) * fc ≤ 256 →
      List.Perm (blockSlice st.1 (k * fc) fc) (List.range fc))
    (List.range FHSS_SEQUENCE_LEN)
    (initial_allocation fc, FirmwareLCG.init seed)
    ⟨length_initial_allocation fc,
     fun k hk => initial_allocation_block_perm fc k h2 hk⟩
    (fun st i hi hp =>
      step2_preserves_blocks fc h2 st i (List.mem_range.mp hi) hp.1 hp.2)
  exact ((hinv.2 k hk).count_eq v).trans
    (List.count_eq_one_of_mem (List.nodup_range fc) (List.mem_range.mpr hv))

/-- Witness for C10 at `freqCount = 4`, seed `0`, block `k = 1`,
value `v = 3`. -/
theorem build_sequence_block_permutation_witness :
    (2 ≤ 4 ∧ 4 ≤ 256 ∧ (1 + 1) * 4 ≤ 256 ∧ 3 < 4) ∧
    (blockSlice (build_sequence 4 0) (1 * 4) 4).count 3 = 1 :=
  ⟨by decide, build_sequence_block_permutation 4 (by decide) (by decide) 0 1 3
    (by decide) (by decide)⟩
